import Mathlib

/-!
Verification of the intelligence and routing core of the MIGA MCP gateway.

Shallow embedding of:
- miga_shared/models.py        (CorrelatedEvent, severity model)
- miga_shared/agntcy/__init__.py (DirectoryClient, IdentityBadge)
- miga_shared/server_base.py   (lifespan deregistration guard)
- packages/gateway/server.py   (RoutingTable, role fan-out)
- packages/webex_bot/nlp/__init__.py (intent classifier)
- servers/infer_mcp/server.py  (correlation, RCA, anomalies, predictions, risk)

Machine floats in the source hold exact small integers and decimal
constants; the embedding uses exact rationals for all arithmetic.
-/

-- ---------------------------------------------------------------------------
-- Severity model: servers/infer_mcp/server.py, _severity_rank.
-- The source lowercases its argument; severity strings in this development
-- are already the lowercase enum values.
-- ---------------------------------------------------------------------------

def severityRank (s : String) : Nat :=
  if s = "critical" then 5
  else if s = "high" then 4
  else if s = "medium" then 3
  else if s = "low" then 2
  else if s = "info" then 1
  else 0

-- ---------------------------------------------------------------------------
-- CorrelatedEvent: miga_shared/models.py.  Only the fields consumed by the
-- analytics under verification are carried (event_id, raw_data, tags and
-- correlation_group are never read by them).  Platform values and severities
-- are their canonical lowercase string forms.
-- ---------------------------------------------------------------------------

structure CEvent where
  sourcePlatform : String
  eventType : String
  severity : String
  timestamp : ℚ
  affectedEntities : List String
deriving DecidableEq, Repr

/-- CorrelatedEvent.overlaps_with: time proximity AND entity overlap. -/
def overlapsWith (e₁ e₂ : CEvent) (w : ℚ) : Bool :=
  decide (|e₁.timestamp - e₂.timestamp| ≤ w) &&
    e₁.affectedEntities.any (fun s => e₂.affectedEntities.contains s)

def evLE (a b : CEvent) : Prop := a.timestamp ≤ b.timestamp

instance : DecidableRel evLE := fun a b => inferInstanceAs (Decidable (a.timestamp ≤ b.timestamp))

instance : IsTotal CEvent evLE := ⟨fun a b => le_total a.timestamp b.timestamp⟩

instance : IsTrans CEvent evLE := ⟨fun _ _ _ h₁ h₂ => le_trans h₁ h₂⟩

/-- Python's sorted() is a stable sort by timestamp; insertion sort with a
total preorder is extensionally the same stable sort. -/
def sortEvents (events : List CEvent) : List CEvent :=
  List.insertionSort evLE events

-- ---------------------------------------------------------------------------
-- Correlation engine: servers/infer_mcp/server.py, correlate_events.
-- The index-and-used-set loop of the source is rendered as seed-anchored
-- recursion: the first unused event seeds a group and absorbs every later
-- unused event overlapping the seed.  Fuel equals the list length, which
-- bounds the recursion depth.
-- ---------------------------------------------------------------------------

def seedGroups (w : ℚ) : Nat → List CEvent → List (List CEvent)
  | 0, _ => []
  | _, [] => []
  | fuel + 1, e :: rest =>
      (e :: rest.filter (fun x => overlapsWith e x w)) ::
        seedGroups w fuel (rest.filter (fun x => !(overlapsWith e x w)))

/-- correlate_events, restricted to the grouping itself (the returned dicts
additionally carry a fresh uuid and derived summary fields). Only groups of
size at least 2 are kept. -/
def correlateGroups (events : List CEvent) (w : ℚ) : List (List CEvent) :=
  (seedGroups w events.length (sortEvents events)).filter (fun g => decide (1 < g.length))

/-- Events a and b appear together in some returned group. -/
def coOccur (a b : CEvent) (groups : List (List CEvent)) : Bool :=
  groups.any (fun g => g.contains a && g.contains b)

-- ---------------------------------------------------------------------------
-- IdentityBadge: miga_shared/agntcy/__init__.py.  os.getenv("MIGA_ENV") is
-- passed in as an explicit Option String; Python string truthiness maps
-- empty/None to false.
-- ---------------------------------------------------------------------------

structure IdentityBadge where
  subject : String
  issuer : String
  badgeType : String
  publicKey : Option String
  signature : Option String
deriving DecidableEq

def pyTruthy : Option String → Bool
  | none => false
  | some s => !(s.isEmpty)

/-- IdentityBadge.verify: development mode bypasses, otherwise
bool(signature and public_key). -/
def IdentityBadge.verify (env : Option String) (b : IdentityBadge) : Bool :=
  if env = some "development" then true
  else pyTruthy b.signature && pyTruthy b.publicKey

-- ---------------------------------------------------------------------------
-- DirectoryClient: miga_shared/agntcy/__init__.py.  The async HTTP transport
-- is shallow-embedded as the outcome the client observes: a response (status
-- plus the json fields the client reads), a connect error (httpx.ConnectError,
-- caught first), or any other exception (timeouts, HTTP status errors raised
-- by raise_for_status, parse errors) which all land in the generic handler.
-- ---------------------------------------------------------------------------

inductive HttpOutcome where
  | ok (status : Nat) (cidField idField : Option String)
  | connectError
  | otherError
deriving DecidableEq

/-- DirectoryClient.register.  raise_for_status makes any status ≥ 400 an
exception handled by the generic branch. -/
def directoryRegister (o : HttpOutcome) : String :=
  match o with
  | .ok status cidField idField =>
      if 400 ≤ status then "error"
      else cidField.getD (idField.getD "unknown")
  | .connectError => "standalone"
  | .otherError => "error"

/-- DirectoryClient.discover: any exception yields the empty list. -/
def directoryDiscover {α : Type} (o : Except Unit (List α)) : List α :=
  match o with
  | .ok records => records
  | .error _ => []

inductive DeleteOutcome where
  | ok (status : Nat)
  | err
deriving DecidableEq

/-- DirectoryClient.deregister: issues the HTTP delete unconditionally; the
cid is only interpolated into the URL, never inspected. -/
def directoryDeregister (cid : String) (o : DeleteOutcome) : Bool :=
  match cid, o with
  | _, .ok status => decide (status < 400)
  | _, .err => false

/-- miga_shared/server_base.py, miga_lifespan shutdown: deregister only when
the cid is truthy and is not a sentinel. -/
def shouldDeregister (cid : String) : Bool :=
  !(cid.isEmpty) && !(cid = "standalone") && !(cid = "error")

-- ---------------------------------------------------------------------------
-- Role taxonomy and capability records: miga_shared/models.py (MIGARole,
-- PlatformCapability) and miga_shared/agntcy/__init__.py (OASFRecord; only
-- the fields read by RoutingTable.load_from_oasf are carried).
-- ---------------------------------------------------------------------------

inductive MRole where
  | observability
  | security
  | automation
  | configuration
  | compliance
  | identity
deriving DecidableEq, Repr

structure Capability where
  toolName : String
  description : String
  roles : List MRole
  readOnly : Bool
  destructive : Bool
  requiresApproval : Bool
  platform : String
deriving DecidableEq, Repr

structure ORecord where
  name : String
  endpoint : String
  capabilities : List Capability
deriving DecidableEq, Repr

-- ---------------------------------------------------------------------------
-- RoutingTable: packages/gateway/server.py.  Python dicts are embedded as
-- functions with pointwise update (get semantics are all the code uses);
-- _by_role is total over MIGARole (initialized for every role) and
-- _by_platform defaults to [] exactly as .get(p, []) does.
-- ---------------------------------------------------------------------------

structure RoutingEntry where
  toolName : String
  endpoint : String
  platform : String
  roles : List MRole
  readOnly : Bool
  requiresApproval : Bool
deriving DecidableEq, Repr

structure RoutingTable where
  byTool : String → Option RoutingEntry
  byRole : MRole → List RoutingEntry
  byPlatform : String → List RoutingEntry
  endpoints : String → Option String

def emptyTable : RoutingTable :=
  ⟨fun _ => none, fun _ => [], fun _ => [], fun _ => none⟩

def entryOfCap (endpoint : String) (c : Capability) : RoutingEntry :=
  ⟨c.toolName, endpoint, c.platform, c.roles, c.readOnly, c.requiresApproval⟩

/-- The body of the inner capability loop of load_from_oasf. -/
def insertCap (t : RoutingTable) (endpoint : String) (c : Capability) : RoutingTable :=
  let entry := entryOfCap endpoint c
  { t with
    byTool := fun n => if n = c.toolName then some entry else t.byTool n
    byRole := fun r => if r ∈ c.roles then t.byRole r ++ [entry] else t.byRole r
    byPlatform := fun p => if p = c.platform then t.byPlatform p ++ [entry] else t.byPlatform p }

/-- The body of the outer record loop of load_from_oasf. -/
def loadRecord (t : RoutingTable) (rec : ORecord) : RoutingTable :=
  rec.capabilities.foldl (fun t c => insertCap t rec.endpoint c)
    { t with endpoints := fun n => if n = rec.name then some rec.endpoint else t.endpoints n }

/-- RoutingTable.load_from_oasf: clears every index, then folds the records. -/
def loadFromOASF (records : List ORecord) : RoutingTable :=
  records.foldl loadRecord emptyTable

def getTool (t : RoutingTable) (name : String) : Option RoutingEntry := t.byTool name

def toolsForRole (t : RoutingTable) (r : MRole) : List RoutingEntry := t.byRole r

def toolsForPlatform (t : RoutingTable) (p : String) : List RoutingEntry := t.byPlatform p

/-- All (endpoint, capability) pairs in record order, capability order:
the order in which load_from_oasf performs its assignments. -/
def flatEntries (records : List ORecord) : List RoutingEntry :=
  records.flatMap (fun rec => rec.capabilities.map (entryOfCap rec.endpoint))

-- ---------------------------------------------------------------------------
-- Role fan-out engine: packages/gateway/server.py, _fan_out.  The engine is
-- embedded by the effect trace it produces against the bus, the audit log
-- and the downstream forwarder.  The effect vocabulary includes the
-- approval-publication and audit actions of the specification so that their
-- absence is expressible.
-- ---------------------------------------------------------------------------

inductive GwEffect where
  | publishApproval
  | auditEntry
  | dispatch (endpoint toolName : String)
deriving DecidableEq, Repr

structure RoleQuery where
  query : String
  platforms : Option (List String)
  toolName : Option String
deriving DecidableEq

/-- s contains pat as a substring (splitOn yields more than one part). -/
def containsSub (s pat : String) : Bool :=
  decide ((s.splitOn pat).length ≠ 1)

def isBroadcastable (toolName : String) : Bool :=
  containsSub toolName "health" || containsSub toolName "overview" ||
    containsSub toolName "status"

/-- The side effects performed by _fan_out.  Direct-call mode forwards to the
single resolved endpoint; otherwise the broadcastable subset of the role's
entries is dispatched in parallel.  `if params.platforms:` is Python
truthiness, so an empty filter list disables filtering. -/
def fanOutEffects (t : RoutingTable) (role : MRole) (q : RoleQuery) : List GwEffect :=
  match q.toolName with
  | some name =>
      match getTool t name with
      | none => []
      | some entry => [GwEffect.dispatch entry.endpoint entry.toolName]
  | none =>
      let entries := toolsForRole t role
      let entries :=
        match q.platforms with
        | some ps => if ps.isEmpty then entries else entries.filter (fun e => ps.contains e.platform)
        | none => entries
      (entries.filter (fun e => isBroadcastable e.toolName)).map
        (fun e => GwEffect.dispatch e.endpoint e.toolName)

-- ---------------------------------------------------------------------------
-- Root cause analysis: servers/infer_mcp/server.py, ROOT_CAUSE_TEMPLATES and
-- match_root_cause.  A correlated group reaches the matcher as a dict with a
-- platform list and per-event dicts carrying source_platform, event_type and
-- severity; those are the only fields the matcher reads.
-- ---------------------------------------------------------------------------

structure GEvent where
  sourcePlatform : String
  eventType : String
  severity : String
deriving DecidableEq, Repr

structure RCAGroup where
  platforms : List String
  events : List GEvent
deriving DecidableEq, Repr

structure RCASignal where
  platform : String
  eventType : String
  minSeverity : String
deriving DecidableEq, Repr

structure RCATemplate where
  id : String
  name : String
  description : String
  signalPattern : List RCASignal
  correlation : String
  rootCause : String
  recommendedActions : List String
deriving DecidableEq, Repr

def ROOT_CAUSE_TEMPLATES : List RCATemplate := [
  { id := "rca-wan-app-slowdown"
    name := "WAN Degradation → Application Slowdown"
    description := "ThousandEyes path loss + Meraki VPN tunnel instability → AppDynamics latency spike"
    signalPattern := [⟨"thousandeyes", "path_loss", "medium"⟩, ⟨"meraki", "vpn_tunnel_flap", "low"⟩]
    correlation := "shared_wan_segment"
    rootCause := "WAN path degradation between sites causing VPN instability and application latency"
    recommendedActions := [
      "Check ISP status page and circuit utilization",
      "Review SD-WAN policy for failover path availability",
      "Enable SLA-based path switching if not already active"] },
  { id := "rca-switch-wireless-impact"
    name := "Switch Failure → Wireless Impact"
    description := "Catalyst Center switch error → Meraki AP disconnection → client drops"
    signalPattern := [⟨"catalyst_center", "device_unreachable", "high"⟩, ⟨"meraki", "ap_offline", "medium"⟩]
    correlation := "shared_infrastructure"
    rootCause := "Upstream switch failure causing access point disconnections and client drops"
    recommendedActions := [
      "Verify switch stack/HA status in Catalyst Center",
      "Check power delivery to affected APs (PoE budget)",
      "Review spanning-tree topology for convergence issues"] },
  { id := "rca-lateral-movement"
    name := "Lateral Movement Detection"
    description := "XDR anomalous traffic + ISE unusual authentication + Meraki new flows"
    signalPattern := [⟨"xdr", "suspicious_traffic", "medium"⟩, ⟨"meraki", "new_flow_spike", "low"⟩]
    correlation := "shared_endpoint"
    rootCause := "Potential lateral movement — compromised endpoint scanning internal network"
    recommendedActions := [
      "Isolate affected endpoint via ISE/Meraki quarantine VLAN",
      "Trigger XDR full investigation on source IP/MAC",
      "Review Secure Firewall logs for C2 beacon patterns",
      "Notify SOC for incident response"] },
  { id := "rca-dns-cascade"
    name := "DNS Failure → Multi-Platform Cascade"
    description := "ThousandEyes DNS resolution failure → widespread connectivity issues"
    signalPattern := [⟨"thousandeyes", "dns_failure", "high"⟩, ⟨"meraki", "client_connectivity_drop", "medium"⟩]
    correlation := "dns_dependency"
    rootCause := "DNS infrastructure failure causing cascading connectivity failures across platforms"
    recommendedActions := [
      "Verify DNS server health and response times",
      "Check if secondary/tertiary DNS servers are reachable",
      "Review DHCP-assigned DNS vs. static configurations",
      "Consider enabling DNS caching at branch level"] },
  { id := "rca-cert-expiry-cascade"
    name := "Certificate Expiry → Authentication Cascade"
    description := "Security Cloud Control cert alert + ISE auth failures + XDR anomalies"
    signalPattern := [⟨"security_cloud_control", "certificate_expiry", "medium"⟩]
    correlation := "certificate_chain"
    rootCause := "Expiring or expired certificates causing authentication failures across services"
    recommendedActions := [
      "Identify all certificates expiring within 30 days",
      "Initiate emergency certificate renewal workflow",
      "Verify certificate chain trust on all dependent services",
      "Update certificate monitoring alerts"] }]

structure RCAResult where
  templateId : String
  name : String
  rootCause : String
  confidence : ℚ
  recommendedActions : List String
  matchedSignals : Nat
deriving DecidableEq, Repr

/-- The inner signal loop of match_root_cause: the counter advances for a
signal as soon as one event matches its platform at sufficient severity.
The event_type carried by the signal is not consulted by the source. -/
def signalMatched (events : List GEvent) (s : RCASignal) : Bool :=
  events.any (fun ev =>
    decide (ev.sourcePlatform = s.platform) &&
      decide (severityRank s.minSeverity ≤ severityRank ev.severity))

def templateResult (t : RCATemplate) (matchCount : Nat) : RCAResult :=
  { templateId := t.id
    name := t.name
    rootCause := t.rootCause
    confidence := 85/100 + (5/100) * matchCount
    recommendedActions := t.recommendedActions
    matchedSignals := t.signalPattern.length }

/-- match_root_cause: first template, in catalog order, whose platforms are
a subset of the group's and whose every signal is matched. -/
def matchRootCause (g : RCAGroup) : Option RCAResult :=
  ROOT_CAUSE_TEMPLATES.findSome? (fun t =>
    if t.signalPattern.all (fun s => g.platforms.contains s.platform) then
      let matchCount := (t.signalPattern.filter (signalMatched g.events)).length
      if matchCount = t.signalPattern.length then some (templateResult t matchCount)
      else none
    else none)

/-- Modelled from the spec: section 4.8 additionally requires
event_type equality for a signal to be matched by an event.  This is the
comparison point for the divergence of match_root_cause, which never reads
the event_type of its signals. -/
def signalMatchedSpec (events : List GEvent) (s : RCASignal) : Bool :=
  events.any (fun ev =>
    decide (ev.sourcePlatform = s.platform) &&
      decide (severityRank s.minSeverity ≤ severityRank ev.severity) &&
      decide (ev.eventType = s.eventType))

/-- Modelled from the spec: match_root_cause as section 4.8 states it,
with the event_type conjunct included. -/
def matchRootCauseSpec (g : RCAGroup) : Option RCAResult :=
  ROOT_CAUSE_TEMPLATES.findSome? (fun t =>
    if t.signalPattern.all (fun s => g.platforms.contains s.platform) then
      let matchCount := (t.signalPattern.filter (signalMatchedSpec g.events)).length
      if matchCount = t.signalPattern.length then some (templateResult t matchCount)
      else none
    else none)

-- ---------------------------------------------------------------------------
-- Anomaly detection: servers/infer_mcp/server.py, detect_anomalies.
-- Timestamps are rationals (seconds).  The source condition
-- `std_dev > 0 and recent < mean - 2 * std_dev` is rendered without the
-- square root: for v = variance and b = mean - recent it is equivalent to
-- 0 < v and 0 < b and 4 * v < b ^ 2 (b > 2 * sqrt v iff b positive and
-- b squared beyond 4 v, and sqrt v > 0 iff v > 0).
-- ---------------------------------------------------------------------------

def sortQ (l : List ℚ) : List ℚ := List.insertionSort (fun a b => a ≤ b) l

/-- Inter-arrival intervals of a timestamp list. -/
def diffsQ : List ℚ → List ℚ
  | a :: b :: rest => (b - a) :: diffsQ (b :: rest)
  | _ => []

def meanQ (l : List ℚ) : ℚ := l.sum / l.length

def varQ (l : List ℚ) : ℚ := ((l.map (fun x => (x - meanQ l) ^ 2)).sum) / l.length

/-- intervals[-1], with the source's fallback to the mean. -/
def lastInterval (l : List ℚ) : ℚ := l.getLastD (meanQ l)

/-- The 2-sigma frequency-spike condition, square-root free. -/
def spike (ivs : List ℚ) : Prop :=
  0 < varQ ivs ∧ 0 < meanQ ivs - lastInterval ivs ∧
    4 * varQ ivs < (meanQ ivs - lastInterval ivs) ^ 2

instance (ivs : List ℚ) : Decidable (spike ivs) :=
  inferInstanceAs (Decidable (_ ∧ _ ∧ _))

structure Anomaly where
  platform : String
  eventType : String
  pattern : String
  meanInterval : ℚ
  recentInterval : ℚ
  confidence : ℚ
  severity : String
deriving DecidableEq, Repr

/-- The anomaly record built by the source (mean and recent intervals are
kept exact here; the source rounds these two display fields to one decimal
after all decisions are made). -/
def mkAnom (sens : ℚ) (p t : String) (ivs : List ℚ) : Anomaly :=
  { platform := p
    eventType := t
    pattern := "frequency_spike"
    meanInterval := meanQ ivs
    recentInterval := lastInterval ivs
    confidence := min (95/100) (sens + 5/100)
    severity := if lastInterval ivs < meanQ ivs * (2/10) then "high" else "medium" }

/-- The per-key body of the bucket loop of detect_anomalies. -/
def detectForKey (sens : ℚ) (p t : String) (ts : List ℚ) : Option Anomaly :=
  if ts.length < 3 then none
  else if diffsQ (sortQ ts) = [] then none
  else if meanQ (diffsQ (sortQ ts)) = 0 then none
  else if spike (diffsQ (sortQ ts)) then some (mkAnom sens p t (diffsQ (sortQ ts)))
  else none

/-- First-occurrence deduplication: Python dict key insertion order. -/
def dedupAux {α : Type} [DecidableEq α] : List α → List α → List α
  | _, [] => []
  | seen, k :: rest =>
      if k ∈ seen then dedupAux seen rest
      else k :: dedupAux (k :: seen) rest

def keysOf (events : List CEvent) : List (String × String) :=
  dedupAux [] (events.map (fun e => (e.sourcePlatform, e.eventType)))

/-- The timestamps bucketed under a (platform, event-type) key, in event
order. -/
def tsForKey (events : List CEvent) (p t : String) : List ℚ :=
  (events.filter (fun e => decide (e.sourcePlatform = p ∧ e.eventType = t))).map
    (fun e => e.timestamp)

/-- detect_anomalies: guard on fewer than 5 events, then one pass over the
buckets in key insertion order. -/
def detectAnomalies (sens : ℚ) (events : List CEvent) : List Anomaly :=
  if events.length < 5 then []
  else (keysOf events).filterMap (fun k => detectForKey sens k.1 k.2 (tsForKey events k.1 k.2))

-- ---------------------------------------------------------------------------
-- Predictive failure analysis: servers/infer_mcp/server.py, predict_failures.
-- Only the fields the risk scorer reads are materialized; the history
-- argument is accepted and ignored exactly as in the source.
-- ---------------------------------------------------------------------------

structure IncidentEntry where
  severity : String
deriving DecidableEq, Repr

structure Prediction where
  predType : String
  riskLevel : String
  confidence : ℚ
deriving DecidableEq, Repr

/-- Platforms of rank-4-or-higher events, first occurrence order (the
iteration order of the platform_counts dict). -/
def highSevPlatforms (events : List CEvent) : List String :=
  dedupAux [] ((events.filter (fun e => decide (4 ≤ severityRank e.severity))).map
    (fun e => e.sourcePlatform))

def highSevCount (events : List CEvent) (p : String) : Nat :=
  ((events.filter (fun e => decide (4 ≤ severityRank e.severity))).filter
    (fun e => decide (e.sourcePlatform = p))).length

def distinctPlatforms (events : List CEvent) : List String :=
  dedupAux [] (events.map (fun e => e.sourcePlatform))

def predictFailures (events : List CEvent) (history : List IncidentEntry) : List Prediction :=
  let pattern1 :=
    ((highSevPlatforms events).filter (fun p => decide (3 ≤ highSevCount events p))).map
      (fun p => { predType := "cascading_failure"
                  riskLevel := "high"
                  confidence := min (90/100) (60/100 + (highSevCount events p) * (10/100)) })
  let pattern2 :=
    if 3 ≤ (distinctPlatforms events).length ∧
        events.any (fun e => decide (3 ≤ severityRank e.severity)) then
      [{ predType := "complex_incident"
         riskLevel := if 4 ≤ (distinctPlatforms events).length then "critical" else "high"
         confidence := 70/100 }]
    else []
  let _ := history
  pattern1 ++ pattern2

-- ---------------------------------------------------------------------------
-- Risk scorer: servers/infer_mcp/server.py, network_risk_score.  Every
-- contribution is a natural number (the source floats carry exact small
-- integers), so the score lives in Nat.  The wall clock enters as `now`.
-- ---------------------------------------------------------------------------

def sevWeight (s : String) : Nat :=
  if s = "critical" then 15
  else if s = "high" then 8
  else if s = "medium" then 3
  else if s = "low" then 1
  else 0

def recentEventsOf (buffer : List CEvent) (now : ℚ) : List CEvent :=
  buffer.filter (fun e => decide (now - e.timestamp < 3600))

def eventScoreOf (events : List CEvent) : Nat :=
  min 60 ((events.map (fun e => sevWeight e.severity)).sum)

def anomalyScoreOf (anomalyLog : List ℚ) : Nat :=
  min 20 (5 * ((anomalyLog.filter (fun c => decide ((7:ℚ)/10 ≤ c))).length))

def predictionScoreOf (preds : List Prediction) : Nat :=
  min 20 (preds.foldl
    (fun acc p =>
      if p.riskLevel = "critical" then acc + 15
      else if p.riskLevel = "high" then acc + 8
      else acc) 0)

def riskTier (s : Nat) : String :=
  if s ≤ 25 then "LOW"
  else if s ≤ 50 then "MODERATE"
  else if s ≤ 75 then "ELEVATED"
  else "CRITICAL"

/-- network_risk_score: (total, tier).  The anomaly log is carried as the
confidence values the filter reads. -/
def networkRiskScore (includePredictions includeAnomalies : Bool)
    (buffer : List CEvent) (anomalyLog : List ℚ) (history : List IncidentEntry)
    (now : ℚ) : Nat × String :=
  let recent := recentEventsOf buffer now
  let eventScore := eventScoreOf recent
  let anomalyScore := if includeAnomalies then anomalyScoreOf anomalyLog else 0
  let predictionScore :=
    if includePredictions then predictionScoreOf (predictFailures recent history) else 0
  let total := min 100 (eventScore + anomalyScore + predictionScore)
  (total, riskTier total)

-- ---------------------------------------------------------------------------
-- Intent classifier: packages/webex_bot/nlp/__init__.py, INTENT_PATTERNS and
-- recognize_intent.  The regex engine is abstracted: the oracle m says, for
-- each row position, whether that row's regex matches the normalized
-- (stripped, lowercased) text — the scan itself is case-insensitive by the
-- re.IGNORECASE flag.  Rows keep their declared category, platform hint and
-- confidence in declaration order.
-- ---------------------------------------------------------------------------

structure IntentRow where
  category : String
  platform : Option String
  confidence : ℚ
deriving DecidableEq, Repr

def INTENT_PATTERNS : List IntentRow := [
  ⟨"network_status", none, 95/100⟩,
  ⟨"network_status", none, 90/100⟩,
  ⟨"network_status", none, 90/100⟩,
  ⟨"observability", some "meraki", 90/100⟩,
  ⟨"observability", some "catalyst_center", 90/100⟩,
  ⟨"observability", some "thousandeyes", 90/100⟩,
  ⟨"observability", some "meraki", 85/100⟩,
  ⟨"security", some "xdr", 90/100⟩,
  ⟨"security", none, 90/100⟩,
  ⟨"security", none, 85/100⟩,
  ⟨"security", some "security_cloud_control", 85/100⟩,
  ⟨"security", some "hypershield", 85/100⟩,
  ⟨"observability", some "infer", 90/100⟩,
  ⟨"observability", some "infer", 90/100⟩,
  ⟨"observability", some "infer", 85/100⟩,
  ⟨"compliance", some "infer", 90/100⟩,
  ⟨"automation", some "catalyst_center", 90/100⟩,
  ⟨"automation", none, 80/100⟩,
  ⟨"automation", some "ise", 90/100⟩,
  ⟨"configuration", none, 85/100⟩,
  ⟨"configuration", none, 80/100⟩,
  ⟨"configuration", none, 80/100⟩,
  ⟨"compliance", none, 85/100⟩,
  ⟨"compliance", none, 80/100⟩,
  ⟨"identity", some "ise", 85/100⟩,
  ⟨"identity", some "ise", 80/100⟩,
  ⟨"help", none, 95/100⟩]

structure IntentResult where
  category : String
  platform : Option String
  confidence : ℚ
deriving DecidableEq, Repr

/-- The scan loop of recognize_intent: a row replaces the remembered best
only when it matches and its confidence is strictly greater (so the earliest
row wins ties).  The index tracks the row position fed to the oracle. -/
def scanRows (m : Nat → Bool) : Nat → List IntentRow → Option IntentRow → Option IntentRow
  | _, [], best => best
  | i, r :: rs, best =>
      scanRows m (i + 1) rs
        (if m i && best.elim true (fun b => decide (b.confidence < r.confidence)) then some r
         else best)

/-- recognize_intent, restricted to category, platform hint and confidence
(entity extraction fills the arguments dict and touches none of these). -/
def recognizeIntent (m : Nat → Bool) : IntentResult :=
  match scanRows m 0 INTENT_PATTERNS none with
  | some b => ⟨b.category, b.platform, b.confidence⟩
  | none => ⟨"unknown", none, 0⟩

-- ---------------------------------------------------------------------------
-- Concrete inputs used by counterexamples and witnesses.
-- ---------------------------------------------------------------------------

/-- Three same-timestamp events whose entity overlap is a chain:
a and b share x, b and c share y, a and c share nothing. -/
def evA : CEvent := ⟨"meraki", "alert", "medium", 0, ["x"]⟩

def evB : CEvent := ⟨"xdr", "alert", "medium", 0, ["x", "y"]⟩

def evC : CEvent := ⟨"catalyst_center", "alert", "medium", 0, ["y"]⟩

def chainEvents : List CEvent := [evA, evB, evC]

/-- Two entity-sharing events at distinct timestamps. -/
def evD : CEvent := ⟨"thousandeyes", "path_loss", "medium", 0, ["site-a"]⟩

def evE : CEvent := ⟨"meraki", "vpn_tunnel_flap", "low", 60, ["site-a"]⟩

def distinctTsEvents : List CEvent := [evD, evE]

/-- A group whose event types are those of the DNS-cascade template but
whose severities also satisfy the WAN-slowdown template's thresholds. -/
def dnsCascadeGroup : RCAGroup :=
  { platforms := ["thousandeyes", "meraki"]
    events := [⟨"thousandeyes", "dns_failure", "high"⟩,
               ⟨"meraki", "client_connectivity_drop", "medium"⟩] }

/-- Two records declaring the same tool name with different endpoints. -/
def dupCapR1 : Capability :=
  ⟨"shared_tool", "first", [MRole.observability], true, false, false, "meraki"⟩

def dupCapR2 : Capability :=
  ⟨"shared_tool", "second", [MRole.observability], true, false, false, "xdr"⟩

def dupRecords : List ORecord :=
  [⟨"server_one", "http://one:8001", [dupCapR1]⟩,
   ⟨"server_two", "http://two:8002", [dupCapR2]⟩]

/-- The ISE quarantine capability: servers/ise_mcp/server.py, an
approval-requiring destructive tool. -/
def iseQuarantineCap : Capability :=
  ⟨"ise_quarantine_endpoint", "Move endpoint to quarantine VLAN",
   [MRole.security], false, true, true, "ise"⟩

def iseRecord : ORecord :=
  ⟨"ise_mcp", "http://ise-mcp:8011", [iseQuarantineCap]⟩

/-- Seven events of one key: five 100-second gaps then a 1-second gap, a
frequency spike beyond two sigma. -/
def spikeEvents : List CEvent :=
  [⟨"xdr", "alert", "medium", 0, []⟩,
   ⟨"xdr", "alert", "medium", 100, []⟩,
   ⟨"xdr", "alert", "medium", 200, []⟩,
   ⟨"xdr", "alert", "medium", 300, []⟩,
   ⟨"xdr", "alert", "medium", 400, []⟩,
   ⟨"xdr", "alert", "medium", 500, []⟩,
   ⟨"xdr", "alert", "medium", 501, []⟩]

/-- Four events in one key (fewer than five in total). -/
def fourEvents : List CEvent :=
  [⟨"meraki", "alert", "low", 0, []⟩,
   ⟨"meraki", "alert", "low", 100, []⟩,
   ⟨"meraki", "alert", "low", 200, []⟩,
   ⟨"meraki", "alert", "low", 201, []⟩]

/-- A buffer for the risk-score witness: one critical event in the window. -/
def riskDemoBuffer : List CEvent :=
  [⟨"xdr", "breach", "critical", 100, []⟩]

/-- The entry built from the last (record, capability) occurrence declaring a
tool name — the claim-side reading of last-wins routing. -/
def lastEntryDeclaring (records : List ORecord) (n : String) : Option RoutingEntry :=
  (flatEntries records).reverse.find? (fun e => decide (n = e.toolName))

/-- Dict-assignment semantics of the capability loop, isolated: the last
assignment under a key wins. -/
def lastAssign (entries : List RoutingEntry) (n : String) (acc : Option RoutingEntry) :
    Option RoutingEntry :=
  entries.foldl (fun acc e => if n = e.toolName then some e else acc) acc

/-- A badge with neither signature nor public key. -/
def devBadge : IdentityBadge := ⟨"miga/gateway", "miga", "mcp_server", none, none⟩

/-- A badge with both credentials present. -/
def signedBadge : IdentityBadge :=
  ⟨"miga/meraki_mcp", "miga", "mcp_server", some "pk", some "sig"⟩

-- ===========================================================================
-- Theorems
-- ===========================================================================

-- ---------------------------------------------------------------------------
-- C10 — IdentityBadge.verify
-- ---------------------------------------------------------------------------

/-- C10: verify() returns True whenever MIGA_ENV is "development" regardless
of the badge's credentials; otherwise it returns True iff both signature and
public_key are non-empty. -/
theorem claim_C10 (env : Option String) (b : IdentityBadge) :
    (env = some "development" → b.verify env = true) ∧
    (env ≠ some "development" →
      (b.verify env = true ↔ b.signature.getD "" ≠ "" ∧ b.publicKey.getD "" ≠ "")) := by
  constructor
  · intro h
    simp [IdentityBadge.verify, h]
  · intro h
    rw [IdentityBadge.verify, if_neg h]
    have hbridge : ∀ s : String, s.isEmpty = false ↔ ¬ s = "" := by
      intro s
      rw [Bool.eq_false_iff]
      exact not_congr (String.isEmpty_iff s)
    cases hs : b.signature <;> cases hp : b.publicKey <;>
      simp [pyTruthy, hbridge]

/-- C10 witness: the development bypass fires on a badge with no
credentials, and outside development a fully credentialed badge verifies. -/
theorem claim_C10_witness :
    devBadge.verify (some "development") = true ∧ signedBadge.verify none = true :=
  ⟨(claim_C10 (some "development") devBadge).1 rfl,
   ((claim_C10 none signedBadge).2 (by decide)).mpr (by decide)⟩

-- ---------------------------------------------------------------------------
-- C6 — DirectoryClient error handling
-- ---------------------------------------------------------------------------

/-- C6 counterexample: a non-connect transport error (timeout) makes
register return "error", not "standalone"; and deregister called with the
sentinel "standalone" does not succeed when the delete itself fails — it
never inspects the id. -/
theorem claim_C6_cex :
    directoryRegister HttpOutcome.otherError ≠ "standalone" ∧
    directoryDeregister "standalone" DeleteOutcome.err ≠ true := by
  decide

/-- C6 amended: register returns "standalone" only on connect errors and
"error" on every other failure; discover returns the empty list on any
error; deregister never inspects its id (the sentinel short-circuit lives in
the server lifespan, which skips deregistration for "standalone"/"error"). -/
theorem claim_C6 :
    directoryRegister HttpOutcome.connectError = "standalone" ∧
    directoryRegister HttpOutcome.otherError = "error" ∧
    directoryDiscover (α := ORecord) (Except.error ()) = [] ∧
    (∀ (cid cid' : String) (o : DeleteOutcome),
      directoryDeregister cid o = directoryDeregister cid' o) ∧
    shouldDeregister "standalone" = false ∧
    shouldDeregister "error" = false := by
  refine ⟨rfl, rfl, rfl, ?_, by decide, by decide⟩
  intro cid cid' o
  cases o <;> rfl

-- ---------------------------------------------------------------------------
-- C1 — match_root_cause ignores signal event types
-- ---------------------------------------------------------------------------

/-- C1: on a group carrying the DNS-cascade event types at DNS-cascade
severities, the source matcher returns the WAN-slowdown template (platform
and severity alone satisfy it, and it comes first in catalog order), while
the matcher the specification describes — with the event_type conjunct —
returns the DNS-cascade template. -/
theorem claim_C1 :
    (matchRootCause dnsCascadeGroup).map (fun r => r.templateId)
        = some "rca-wan-app-slowdown" ∧
    (matchRootCause dnsCascadeGroup).map (fun r => r.confidence) = some (95/100) ∧
    (matchRootCauseSpec dnsCascadeGroup).map (fun r => r.templateId)
        = some "rca-dns-cascade" := by
  refine ⟨rfl, ?_, rfl⟩
  have h : (matchRootCause dnsCascadeGroup).map (fun r => r.confidence)
      = some (85/100 + (5/100) * ((2:ℕ):ℚ)) := rfl
  rw [h]
  norm_num

-- ---------------------------------------------------------------------------
-- C2 — the fan-out engine performs no approval publication and no audit
-- ---------------------------------------------------------------------------

/-- C2: a direct call through the security meta-tool to
ise_quarantine_endpoint — whose routing entry has requires_approval = true —
produces exactly one effect: the dispatch to the backend.  No
approval:request publication and no audit entry appear in the trace. -/
theorem claim_C2 :
    (getTool (loadFromOASF [iseRecord]) "ise_quarantine_endpoint").map
        (fun e => e.requiresApproval) = some true ∧
    fanOutEffects (loadFromOASF [iseRecord]) MRole.security
        ⟨"", none, some "ise_quarantine_endpoint"⟩
      = [GwEffect.dispatch "http://ise-mcp:8011" "ise_quarantine_endpoint"] := by
  constructor <;> rfl


-- ---------------------------------------------------------------------------
-- C3 — routing table indexes under duplicate tool names
-- ---------------------------------------------------------------------------

/-- C3 counterexample: two records declaring shared_tool.  get_tool resolves
to the second record's endpoint, but the by-role index still contains the
first record's entry — the superseded entry is present in that index. -/
theorem claim_C3_cex :
    ((loadFromOASF dupRecords).byRole MRole.observability).map (fun e => e.endpoint)
        = ["http://one:8001", "http://two:8002"] ∧
    (getTool (loadFromOASF dupRecords) "shared_tool").map (fun e => e.endpoint)
        = some "http://two:8002" := by
  constructor <;> rfl

lemma lastAssign_cons (e : RoutingEntry) (l : List RoutingEntry) (n : String) (acc : Option RoutingEntry) :
    lastAssign (e :: l) n acc = lastAssign l n (if n = e.toolName then some e else acc) := rfl

lemma lastAssign_append (l₁ l₂ : List RoutingEntry) (n : String) (acc : Option RoutingEntry) :
    lastAssign (l₁ ++ l₂) n acc = lastAssign l₂ n (lastAssign l₁ n acc) := by
  unfold lastAssign
  exact List.foldl_append _ _ _ _

lemma flatEntries_cons (r : ORecord) (rs : List ORecord) :
    flatEntries (r :: rs) = r.capabilities.map (entryOfCap r.endpoint) ++ flatEntries rs := rfl

lemma flatEntries_nil : flatEntries [] = [] := rfl

lemma capsFold_byTool (ep n : String) :
    ∀ (cs : List Capability) (t : RoutingTable),
      (cs.foldl (fun t c => insertCap t ep c) t).byTool n
        = lastAssign (cs.map (entryOfCap ep)) n (t.byTool n) := by
  intro cs
  induction cs with
  | nil => intro t; rfl
  | cons c cs ih =>
      intro t
      rw [List.foldl_cons, ih, List.map_cons, lastAssign_cons]
      rfl

lemma capsFold_byRole (ep : String) (r : MRole) :
    ∀ (cs : List Capability) (t : RoutingTable),
      (cs.foldl (fun t c => insertCap t ep c) t).byRole r
        = t.byRole r ++ (cs.map (entryOfCap ep)).filter (fun e => decide (r ∈ e.roles)) := by
  intro cs
  induction cs with
  | nil => intro t; simp [flatEntries_nil]
  | cons c cs ih =>
      intro t
      rw [List.foldl_cons, ih, List.map_cons, List.filter_cons]
      by_cases h : r ∈ c.roles
      · simp [insertCap, entryOfCap, h, List.append_assoc]
      · simp [insertCap, entryOfCap, h]

lemma capsFold_byPlatform (ep p : String) :
    ∀ (cs : List Capability) (t : RoutingTable),
      (cs.foldl (fun t c => insertCap t ep c) t).byPlatform p
        = t.byPlatform p ++ (cs.map (entryOfCap ep)).filter (fun e => decide (p = e.platform)) := by
  intro cs
  induction cs with
  | nil => intro t; simp
  | cons c cs ih =>
      intro t
      rw [List.foldl_cons, ih, List.map_cons, List.filter_cons]
      by_cases h : p = c.platform
      · simp [insertCap, entryOfCap, h, List.append_assoc]
      · simp [insertCap, entryOfCap, h]

lemma recordsFold_byTool (n : String) :
    ∀ (rs : List ORecord) (t : RoutingTable),
      (rs.foldl loadRecord t).byTool n = lastAssign (flatEntries rs) n (t.byTool n) := by
  intro rs
  induction rs with
  | nil => intro t; rfl
  | cons r rs ih =>
      intro t
      have h1 : (r :: rs).foldl loadRecord t = rs.foldl loadRecord (loadRecord t r) :=
        List.foldl_cons _ _
      rw [h1, ih (loadRecord t r)]
      have h2 : (loadRecord t r).byTool n
          = lastAssign (r.capabilities.map (entryOfCap r.endpoint)) n (t.byTool n) := by
        rw [loadRecord, capsFold_byTool]
      rw [h2, flatEntries_cons, lastAssign_append]

lemma recordsFold_byRole (r : MRole) :
    ∀ (rs : List ORecord) (t : RoutingTable),
      (rs.foldl loadRecord t).byRole r
        = t.byRole r ++ (flatEntries rs).filter (fun e => decide (r ∈ e.roles)) := by
  intro rs
  induction rs with
  | nil => intro t; rw [flatEntries_nil]; simp
  | cons rc rs ih =>
      intro t
      have h1 : (rc :: rs).foldl loadRecord t = rs.foldl loadRecord (loadRecord t rc) :=
        List.foldl_cons _ _
      rw [h1, ih (loadRecord t rc)]
      have h2 : (loadRecord t rc).byRole r
          = t.byRole r ++ (rc.capabilities.map (entryOfCap rc.endpoint)).filter
              (fun e => decide (r ∈ e.roles)) := by
        rw [loadRecord, capsFold_byRole]
      rw [h2, flatEntries_cons, List.filter_append, List.append_assoc]

lemma recordsFold_byPlatform (p : String) :
    ∀ (rs : List ORecord) (t : RoutingTable),
      (rs.foldl loadRecord t).byPlatform p
        = t.byPlatform p ++ (flatEntries rs).filter (fun e => decide (p = e.platform)) := by
  intro rs
  induction rs with
  | nil => intro t; rw [flatEntries_nil]; simp
  | cons rc rs ih =>
      intro t
      have h1 : (rc :: rs).foldl loadRecord t = rs.foldl loadRecord (loadRecord t rc) :=
        List.foldl_cons _ _
      rw [h1, ih (loadRecord t rc)]
      have h2 : (loadRecord t rc).byPlatform p
          = t.byPlatform p ++ (rc.capabilities.map (entryOfCap rc.endpoint)).filter
              (fun e => decide (p = e.platform)) := by
        rw [loadRecord, capsFold_byPlatform]
      rw [h2, flatEntries_cons, List.filter_append, List.append_assoc]

lemma lastAssign_eq_find (n : String) :
    ∀ (l : List RoutingEntry) (acc : Option RoutingEntry),
      lastAssign l n acc
        = (l.reverse.find? (fun e => decide (n = e.toolName))).elim acc some := by
  intro l
  induction l using List.reverseRecOn with
  | nil => intro acc; rfl
  | append_singleton l a ih =>
      intro acc
      rw [lastAssign_append, List.reverse_append]
      simp only [List.reverse_singleton, List.singleton_append, List.find?_cons]
      by_cases h : n = a.toolName
      · simp only [h, decide_True, Option.elim]
        show (if a.toolName = a.toolName then some a else lastAssign l a.toolName acc) = some a
        rw [if_pos rfl]
      · simp only [h, decide_False]
        show (if n = a.toolName then some a else lastAssign l n acc) = _
        rw [if_neg h, ih]

/-- C3 amended: the by-tool index holds exactly the entry of the last
(record, capability) occurrence declaring each tool name — get_tool returns
that entry — while the by-role and by-platform indexes accumulate one entry
per occurrence, so a duplicated tool name contributes several entries
there. -/
theorem claim_C3 (records : List ORecord) (n : String) (r : MRole) (p : String) :
    getTool (loadFromOASF records) n = lastEntryDeclaring records n ∧
    toolsForRole (loadFromOASF records) r
      = (flatEntries records).filter (fun e => decide (r ∈ e.roles)) ∧
    toolsForPlatform (loadFromOASF records) p
      = (flatEntries records).filter (fun e => decide (p = e.platform)) := by
  refine ⟨?_, ?_, ?_⟩
  · show (records.foldl loadRecord emptyTable).byTool n = _
    rw [recordsFold_byTool, lastAssign_eq_find, lastEntryDeclaring]
    cases (flatEntries records).reverse.find? (fun e => decide (n = e.toolName)) <;> rfl
  · show (records.foldl loadRecord emptyTable).byRole r = _
    rw [recordsFold_byRole]
    rfl
  · show (records.foldl loadRecord emptyTable).byPlatform p = _
    rw [recordsFold_byPlatform]
    rfl

-- ---------------------------------------------------------------------------
-- C9 — the five-event guard of detect_anomalies
-- ---------------------------------------------------------------------------

/-- C9: with fewer than 5 events in total, detect_anomalies returns the
empty list. -/
theorem claim_C9 (sens : ℚ) (events : List CEvent) (h : events.length < 5) :
    detectAnomalies sens events = [] := by
  rw [detectAnomalies, if_pos h]

/-- C9 witness: four events in one key. -/
theorem claim_C9_witness :
    fourEvents.length < 5 ∧ detectAnomalies (85/100) fourEvents = [] :=
  ⟨by decide, claim_C9 (85/100) fourEvents (by decide)⟩

-- ---------------------------------------------------------------------------
-- C4 — the anomaly emission condition
-- ---------------------------------------------------------------------------

lemma diffsQ_length (l : List ℚ) : (diffsQ l).length = l.length - 1 := by
  induction l with
  | nil => rfl
  | cons a l ih =>
      cases l with
      | nil => rfl
      | cons b rest =>
          show ((b - a) :: diffsQ (b :: rest)).length = _
          simp only [List.length_cons]
          rw [ih]
          simp only [List.length_cons]
          omega

lemma sortQ_length (l : List ℚ) : (sortQ l).length = l.length :=
  (List.perm_insertionSort _ l).length_eq

lemma getLastD_mem (l : List ℚ) (d : ℚ) (h : l ≠ []) : l.getLastD d ∈ l := by
  induction l generalizing d with
  | nil => exact absurd rfl h
  | cons a l ih =>
      cases l with
      | nil => exact List.mem_singleton.mpr rfl
      | cons b rest =>
          have : ((a :: b :: rest).getLastD d) = (b :: rest).getLastD a := rfl
          rw [this]
          exact List.mem_cons_of_mem a (ih a (by simp))

/-- For at most four samples, no sample can sit strictly more than two
standard deviations below the mean: the spike condition needs at least five
inter-arrival intervals. -/
lemma spike_impossible (l : List ℚ) (hne : l ≠ []) (hlen : l.length ≤ 4) : ¬ spike l := by
  rintro ⟨hv, hb, h4⟩
  have hnpos : (0:ℚ) < (l.length : ℚ) := by
    have := List.length_pos.mpr hne
    exact_mod_cast this
  have hr : lastInterval l ∈ l := getLastD_mem l _ hne
  have hterm : (lastInterval l - meanQ l) ^ 2 ≤ (l.map (fun x => (x - meanQ l) ^ 2)).sum := by
    apply List.single_le_sum
    · intro x hx
      obtain ⟨y, _, rfl⟩ := List.mem_map.mp hx
      positivity
    · exact List.mem_map_of_mem _ hr
  have hsum : (l.map (fun x => (x - meanQ l) ^ 2)).sum = varQ l * (l.length : ℚ) := by
    rw [varQ]
    field_simp
  have h1 : (meanQ l - lastInterval l) ^ 2 ≤ varQ l * (l.length : ℚ) := by
    calc (meanQ l - lastInterval l) ^ 2
        = (lastInterval l - meanQ l) ^ 2 := by ring
      _ ≤ (l.map (fun x => (x - meanQ l) ^ 2)).sum := hterm
      _ = varQ l * (l.length : ℚ) := hsum
  have hc4 : ((l.length : ℚ)) ≤ 4 := by exact_mod_cast hlen
  have h2 : varQ l * (l.length : ℚ) ≤ varQ l * 4 :=
    mul_le_mul_of_nonneg_left hc4 (le_of_lt hv)
  linarith

lemma detectForKey_eq_some (sens : ℚ) (p t : String) (ts : List ℚ) (a : Anomaly) :
    detectForKey sens p t ts = some a ↔
      3 ≤ ts.length ∧ meanQ (diffsQ (sortQ ts)) ≠ 0 ∧ spike (diffsQ (sortQ ts)) ∧
        a = mkAnom sens p t (diffsQ (sortQ ts)) := by
  unfold detectForKey
  by_cases h3 : ts.length < 3
  · rw [if_pos h3]
    constructor
    · intro h; exact absurd h (by simp)
    · rintro ⟨h, _⟩; exact absurd h (by omega)
  · have h3' : 3 ≤ ts.length := by omega
    have hivlen : (diffsQ (sortQ ts)).length = ts.length - 1 := by
      rw [diffsQ_length, sortQ_length]
    have hne : ¬ (diffsQ (sortQ ts) = []) := by
      intro h
      rw [h] at hivlen
      simp at hivlen
      omega
    rw [if_neg h3, if_neg hne]
    by_cases hm : meanQ (diffsQ (sortQ ts)) = 0
    · rw [if_pos hm]
      simp [hm]
    · rw [if_neg hm]
      by_cases hs : spike (diffsQ (sortQ ts))
      · rw [if_pos hs]
        simp only [Option.some_inj]
        constructor
        · intro h; exact ⟨h3', hm, hs, h.symm⟩
        · rintro ⟨_, _, _, rfl⟩; rfl
      · rw [if_neg hs]
        constructor
        · intro h; exact absurd h (by simp)
        · rintro ⟨_, _, hs2, _⟩; exact absurd hs2 hs

lemma mem_dedupAux {α : Type} [DecidableEq α] :
    ∀ (l seen : List α) (x : α), x ∈ dedupAux seen l ↔ x ∈ l ∧ x ∉ seen := by
  intro l
  induction l with
  | nil => intro seen x; simp [dedupAux]
  | cons k rest ih =>
      intro seen x
      rw [dedupAux]
      by_cases hk : k ∈ seen
      · rw [if_pos hk, ih]
        constructor
        · rintro ⟨hx, hn⟩; exact ⟨List.mem_cons_of_mem k hx, hn⟩
        · rintro ⟨hx, hn⟩
          rcases List.mem_cons.mp hx with rfl | hx
          · exact absurd hk hn
          · exact ⟨hx, hn⟩
      · rw [if_neg hk]
        constructor
        · intro hx
          rcases List.mem_cons.mp hx with rfl | hx
          · exact ⟨List.mem_cons_self _ _, hk⟩
          · obtain ⟨h1, h2⟩ := (ih (k :: seen) x).mp hx
            refine ⟨List.mem_cons_of_mem k h1, ?_⟩
            intro hs
            exact h2 (List.mem_cons_of_mem k hs)
        · rintro ⟨hx, hn⟩
          rcases List.mem_cons.mp hx with rfl | hx
          · exact List.mem_cons_self _ _
          · by_cases hxk : x = k
            · subst hxk; exact List.mem_cons_self _ _
            · refine List.mem_cons_of_mem k ((ih (k :: seen) x).mpr ⟨hx, ?_⟩)
              intro hs
              rcases List.mem_cons.mp hs with h | h
              · exact hxk h
              · exact hn h

lemma mem_keysOf (events : List CEvent) (p t : String) :
    (p, t) ∈ keysOf events ↔ ∃ e ∈ events, e.sourcePlatform = p ∧ e.eventType = t := by
  rw [keysOf, mem_dedupAux]
  simp only [List.mem_map, List.not_mem_nil, not_false_iff, and_true]
  constructor
  · rintro ⟨e, he, hq⟩
    exact ⟨e, he, congrArg Prod.fst hq, congrArg Prod.snd hq⟩
  · rintro ⟨e, he, h1, h2⟩
    exact ⟨e, he, by rw [h1, h2]⟩

/-- C4: detect_anomalies emits an anomaly for a (platform, event-type) key
exactly when the key holds at least 3 events, the mean inter-arrival
interval is nonzero, and the two-sigma spike condition holds (sigma positive
and the most recent interval below mean minus two sigma); emitted records
carry confidence min(0.95, sensitivity + 0.05) and severity high exactly
when the recent interval is below a fifth of the mean.  The five-event input
guard is invisible here: with fewer than five events every key has at most
three intervals, and no sample of at most four sits two sigmas below their
mean. -/
theorem claim_C4 (sens : ℚ) (events : List CEvent) (p t : String) :
    ((detectAnomalies sens events).any
        (fun a => decide (a.platform = p ∧ a.eventType = t)) = true
      ↔ (3 ≤ (tsForKey events p t).length ∧
          meanQ (diffsQ (sortQ (tsForKey events p t))) ≠ 0 ∧
          spike (diffsQ (sortQ (tsForKey events p t))))) ∧
    (detectAnomalies sens events).all
        (fun a => decide (a.confidence = min (95/100) (sens + 5/100) ∧
          a.severity
            = (if a.recentInterval < a.meanInterval * (2/10) then "high" else "medium")))
      = true := by
  constructor
  · by_cases hlen : events.length < 5
    · rw [detectAnomalies, if_pos hlen]
      simp only [List.any_nil]
      constructor
      · intro h; exact absurd h (by simp)
      · rintro ⟨h3, _, hs⟩
        have hts : (tsForKey events p t).length ≤ events.length := by
          rw [tsForKey, List.length_map]
          exact List.length_filter_le _ _
        have hivlen : (diffsQ (sortQ (tsForKey events p t))).length
            = (tsForKey events p t).length - 1 := by
          rw [diffsQ_length, sortQ_length]
        have hne : diffsQ (sortQ (tsForKey events p t)) ≠ [] := by
          intro h
          rw [h] at hivlen
          simp at hivlen
          omega
        exact absurd hs (spike_impossible _ hne (by omega))
    · rw [detectAnomalies, if_neg hlen, List.any_eq_true]
      constructor
      · rintro ⟨a, ha, hpa⟩
        obtain ⟨k, _, hfk⟩ := List.mem_filterMap.mp ha
        rw [detectForKey_eq_some] at hfk
        obtain ⟨h3, hm, hs, rfl⟩ := hfk
        obtain ⟨hp, ht⟩ := of_decide_eq_true hpa
        have hp' : k.1 = p := hp
        have ht' : k.2 = t := ht
        rw [hp', ht'] at h3 hm hs
        exact ⟨h3, hm, hs⟩
      · rintro ⟨h3, hm, hs⟩
        have hkmem : (p, t) ∈ keysOf events := by
          rw [mem_keysOf]
          have hpos : 0 < (tsForKey events p t).length := by omega
          rw [tsForKey, List.length_map] at hpos
          obtain ⟨e, he⟩ := List.exists_mem_of_length_pos hpos
          have hef := List.mem_filter.mp he
          exact ⟨e, hef.1, (of_decide_eq_true hef.2).1, (of_decide_eq_true hef.2).2⟩
        refine ⟨mkAnom sens p t (diffsQ (sortQ (tsForKey events p t))), ?_, ?_⟩
        · exact List.mem_filterMap.mpr
            ⟨(p, t), hkmem, (detectForKey_eq_some sens p t _ _).mpr ⟨h3, hm, hs, rfl⟩⟩
        · exact decide_eq_true ⟨rfl, rfl⟩
  · by_cases hlen : events.length < 5
    · rw [detectAnomalies, if_pos hlen]
      rfl
    · rw [detectAnomalies, if_neg hlen, List.all_eq_true]
      intro a ha
      obtain ⟨k, _, hfk⟩ := List.mem_filterMap.mp ha
      rw [detectForKey_eq_some] at hfk
      obtain ⟨_, _, _, rfl⟩ := hfk
      exact decide_eq_true ⟨rfl, rfl⟩

/-- C4 witness: seven events of one key, five 100-second gaps then a
1-second gap, make the detector fire. -/
theorem claim_C4_witness :
    (detectAnomalies (85/100) spikeEvents).any
      (fun a => decide (a.platform = "xdr" ∧ a.eventType = "alert")) = true :=
  (claim_C4 (85/100) spikeEvents "xdr" "alert").1.mpr (by
    norm_num [tsForKey, spikeEvents, diffsQ, sortQ, List.insertionSort,
      List.orderedInsert, meanQ, varQ, lastInterval, spike])

-- ---------------------------------------------------------------------------
-- C5 — correlation co-occurrence under input reversal
-- ---------------------------------------------------------------------------

/-- C5 counterexample: three same-timestamp events whose entity overlap is a
chain.  Forward, the stable sort keeps the declaration order, the seed a
absorbs b, and a and b co-occur; reversed, c seeds first and absorbs b, so a
and b no longer co-occur. -/
theorem claim_C5_cex :
    coOccur evA evB (correlateGroups chainEvents 300) = true ∧
    coOccur evA evB (correlateGroups chainEvents.reverse 300) = false := by
  have h1 : correlateGroups chainEvents 300 = [[evA, evB]] := by
    norm_num [correlateGroups, chainEvents, sortEvents, List.insertionSort,
      List.orderedInsert, evLE, seedGroups, overlapsWith, evA, evB, evC]
    all_goals decide
  have h2 : correlateGroups chainEvents.reverse 300 = [[evC, evB]] := by
    norm_num [correlateGroups, chainEvents, sortEvents, List.insertionSort,
      List.orderedInsert, evLE, seedGroups, overlapsWith, evA, evB, evC]
    all_goals decide
  rw [h1, h2]
  constructor <;> decide

lemma sorted_eq_of_perm_distinctTs :
    ∀ (l₁ l₂ : List CEvent), l₁.Perm l₂ → List.Sorted evLE l₁ → List.Sorted evLE l₂ →
      l₁.Pairwise (fun e₁ e₂ => e₁.timestamp ≠ e₂.timestamp) → l₁ = l₂ := by
  intro l₁
  induction l₁ with
  | nil =>
      intro l₂ hp _ _ _
      exact (hp.symm.eq_nil).symm
  | cons a t₁ ih =>
      intro l₂ hp hs₁ hs₂ hd
      cases l₂ with
      | nil =>
          have := hp.eq_nil
          simp at this
      | cons b t₂ =>
          have hab : a = b := by
            rcases List.mem_cons.mp (hp.subset (List.mem_cons_self a t₁)) with h | ha
            · exact h
            · rcases List.mem_cons.mp (hp.symm.subset (List.mem_cons_self b t₂)) with h | hb
              · exact h.symm
              · exfalso
                have h1 : evLE a b := (List.sorted_cons.mp hs₁).1 b hb
                have h2 : evLE b a := (List.sorted_cons.mp hs₂).1 a ha
                exact (List.pairwise_cons.mp hd).1 b hb (le_antisymm h1 h2)
          subst hab
          have hrec := ih t₂ hp.cons_inv (List.sorted_cons.mp hs₁).2
            (List.sorted_cons.mp hs₂).2 (List.pairwise_cons.mp hd).2
          rw [hrec]

lemma sortEvents_reverse (events : List CEvent)
    (hd : events.Pairwise (fun e₁ e₂ => e₁.timestamp ≠ e₂.timestamp)) :
    sortEvents events.reverse = sortEvents events := by
  apply sorted_eq_of_perm_distinctTs
  · exact ((List.perm_insertionSort evLE events.reverse).trans events.reverse_perm).trans
      (List.perm_insertionSort evLE events).symm
  · exact List.sorted_insertionSort evLE events.reverse
  · exact List.sorted_insertionSort evLE events
  · have hperm : (sortEvents events.reverse).Perm events :=
      (List.perm_insertionSort evLE events.reverse).trans events.reverse_perm
    exact (hperm.pairwise_iff (fun hh hh2 => hh hh2.symm)).mpr hd

/-- C5 amended: provided no two events share a timestamp, the grouping — and
hence co-occurrence of any two events — is invariant under reversing the
input.  (With equal timestamps the stable sort preserves input order and the
greedy seed choice can differ, as the counterexample shows.) -/
theorem claim_C5 (events : List CEvent) (w : ℚ) (a b : CEvent)
    (hd : events.Pairwise (fun e₁ e₂ => e₁.timestamp ≠ e₂.timestamp)) :
    coOccur a b (correlateGroups events.reverse w) = coOccur a b (correlateGroups events w) := by
  have h : correlateGroups events.reverse w = correlateGroups events w := by
    rw [correlateGroups, correlateGroups, sortEvents_reverse events hd, List.length_reverse]
  rw [h]

/-- C5 witness: two entity-sharing events at distinct timestamps. -/
theorem claim_C5_witness :
    distinctTsEvents.Pairwise (fun e₁ e₂ => e₁.timestamp ≠ e₂.timestamp) ∧
    coOccur evD evE (correlateGroups distinctTsEvents.reverse 300)
      = coOccur evD evE (correlateGroups distinctTsEvents 300) :=
  ⟨by decide, claim_C5 distinctTsEvents 300 evD evE (by decide)⟩

-- ---------------------------------------------------------------------------
-- C7 — risk score bound, composition and tier
-- ---------------------------------------------------------------------------

/-- C7: the risk score is min(100, e + a + p) with e the severity-weighted
event sum capped at 60, a = min(20, 5 times the count of anomalies with
confidence at least 0.7) when anomalies are included (0 otherwise), p the
prediction sum with critical 15 and high 8 capped at 20 when predictions are
included (0 otherwise); the score never exceeds 100, each component respects
its cap, the reported tier is computed from the score alone, and the tier
ranges are LOW 0-25, MODERATE 26-50, ELEVATED 51-75, CRITICAL 76-100. -/
theorem claim_C7 (ip ia : Bool) (buffer : List CEvent) (anomalyLog : List ℚ)
    (hist : List IncidentEntry) (now : ℚ) :
    (networkRiskScore ip ia buffer anomalyLog hist now).1 ≤ 100 ∧
    (networkRiskScore ip ia buffer anomalyLog hist now).1
      = min 100 (eventScoreOf (recentEventsOf buffer now)
          + (if ia then anomalyScoreOf anomalyLog else 0)
          + (if ip then predictionScoreOf
                (predictFailures (recentEventsOf buffer now) hist) else 0)) ∧
    eventScoreOf (recentEventsOf buffer now) ≤ 60 ∧
    (if ia then anomalyScoreOf anomalyLog else 0) ≤ 20 ∧
    (if ip then predictionScoreOf (predictFailures (recentEventsOf buffer now) hist) else 0)
      ≤ 20 ∧
    (networkRiskScore ip ia buffer anomalyLog hist now).2
      = riskTier (networkRiskScore ip ia buffer anomalyLog hist now).1 ∧
    (∀ n : Nat, n ≤ 100 →
      ((riskTier n = "LOW" ↔ n ≤ 25) ∧
       (riskTier n = "MODERATE" ↔ 26 ≤ n ∧ n ≤ 50) ∧
       (riskTier n = "ELEVATED" ↔ 51 ≤ n ∧ n ≤ 75) ∧
       (riskTier n = "CRITICAL" ↔ 76 ≤ n ∧ n ≤ 100))) := by
  refine ⟨Nat.min_le_left _ _, rfl, Nat.min_le_left _ _, ?_, ?_, rfl, ?_⟩
  · by_cases h : ia = true
    · rw [if_pos h]; exact Nat.min_le_left _ _
    · rw [if_neg h]; omega
  · by_cases h : ip = true
    · rw [if_pos h]; exact Nat.min_le_left _ _
    · rw [if_neg h]; omega
  · intro n hn
    rw [riskTier]
    by_cases h1 : n ≤ 25
    · rw [if_pos h1]
      refine ⟨by simp [h1], ?_, ?_, ?_⟩ <;> simp <;> omega
    · rw [if_neg h1]
      by_cases h2 : n ≤ 50
      · rw [if_pos h2]
        refine ⟨by simp [h1], by simp; omega, ?_, ?_⟩ <;> simp <;> omega
      · rw [if_neg h2]
        by_cases h3 : n ≤ 75
        · rw [if_pos h3]
          refine ⟨by simp [h1], by simp; omega, by simp; omega, ?_⟩
          simp
          omega
        · rw [if_neg h3]
          refine ⟨by simp; omega, by simp; omega, by simp; omega, by simp; omega⟩

/-- C7 witness: a concrete state, plus the tier of score 30. -/
theorem claim_C7_witness :
    (networkRiskScore true true riskDemoBuffer [4/5] [] 1000).1 ≤ 100 ∧
    riskTier 30 = "MODERATE" :=
  ⟨(claim_C7 true true riskDemoBuffer [4/5] [] 1000).1,
   (((claim_C7 true true riskDemoBuffer [4/5] [] 1000).2.2.2.2.2.2 30
      (by decide)).2.1).mpr (by decide)⟩

-- ---------------------------------------------------------------------------
-- C8 — intent classifier selection policy
-- ---------------------------------------------------------------------------

lemma scanRows_cons (m : Nat → Bool) (i : Nat) (r : IntentRow) (rs : List IntentRow)
    (best : Option IntentRow) :
    scanRows m i (r :: rs) best
      = scanRows m (i + 1) rs
          (if m i && best.elim true (fun b => decide (b.confidence < r.confidence)) then some r
           else best) := rfl

lemma scanRows_none (m : Nat → Bool) :
    ∀ (rows : List IntentRow) (n : Nat) (acc : Option IntentRow),
      (∀ i : Fin rows.length, m (n + i.val) = false) → scanRows m n rows acc = acc := by
  intro rows
  induction rows with
  | nil => intro n acc _; rfl
  | cons r rs ih =>
      intro n acc hall
      rw [scanRows_cons]
      have h0 : m n = false := by simpa using hall ⟨0, by simp⟩
      rw [h0, Bool.false_and, if_neg Bool.false_ne_true]
      refine ih (n + 1) acc (fun i => ?_)
      have h := hall ⟨i.val + 1, by simpa using Nat.succ_lt_succ i.isLt⟩
      have e : n + 1 + i.val = n + (i.val + 1) := by omega
      rw [e]
      exact h

lemma scanRows_keep (m : Nat → Bool) :
    ∀ (rows : List IntentRow) (n : Nat) (b : IntentRow),
      (∀ i : Fin rows.length, m (n + i.val) = true →
        (rows.get i).confidence ≤ b.confidence) →
      scanRows m n rows (some b) = some b := by
  intro rows
  induction rows with
  | nil => intro n b _; rfl
  | cons r rs ih =>
      intro n b hall
      rw [scanRows_cons]
      have hnext : ∀ i : Fin rs.length, m (n + 1 + i.val) = true →
          (rs.get i).confidence ≤ b.confidence := by
        intro i hi
        have e : n + 1 + i.val = n + (i.val + 1) := by omega
        rw [e] at hi
        have h := hall ⟨i.val + 1, by simpa using Nat.succ_lt_succ i.isLt⟩ hi
        simpa using h
      by_cases hm : m n = true
      · have hle : r.confidence ≤ b.confidence := by
          have h := hall ⟨0, by simp⟩ (by simpa using hm)
          simpa using h
        rw [hm, Bool.true_and, Option.elim_some, decide_eq_false (not_lt.mpr hle),
          if_neg Bool.false_ne_true]
        exact ih (n + 1) b hnext
      · have hm2 : m n = false := by simpa using hm
        rw [hm2, Bool.false_and, if_neg Bool.false_ne_true]
        exact ih (n + 1) b hnext

lemma scanRows_wins (m : Nat → Bool) :
    ∀ (rows : List IntentRow) (n : Nat) (j : Fin rows.length),
      m (n + j.val) = true →
      (∀ i : Fin rows.length, m (n + i.val) = true →
        (rows.get i).confidence ≤ (rows.get j).confidence) →
      (∀ i : Fin rows.length, i.val < j.val → m (n + i.val) = true →
        (rows.get i).confidence < (rows.get j).confidence) →
      ∀ acc : Option IntentRow,
        (acc = none ∨ ∃ b, acc = some b ∧ b.confidence < (rows.get j).confidence) →
        scanRows m n rows acc = some (rows.get j) := by
  intro rows
  induction rows with
  | nil => intro n j; exact j.elim0
  | cons r rs ih =>
      intro n j hj hle hlt acc hacc
      obtain ⟨jv, hjv⟩ := j
      cases jv with
      | zero =>
          rw [scanRows_cons]
          have hm : m n = true := by simpa using hj
          have hcond : (m n && acc.elim true
              (fun b => decide (b.confidence < r.confidence))) = true := by
            rw [hm, Bool.true_and]
            rcases hacc with rfl | ⟨b, rfl, hb⟩
            · rfl
            · rw [Option.elim_some]
              have hb' : b.confidence < r.confidence := by simpa using hb
              exact decide_eq_true hb'
          rw [hcond, if_pos rfl]
          have hkeep : ∀ i : Fin rs.length, m (n + 1 + i.val) = true →
              (rs.get i).confidence ≤ r.confidence := by
            intro i hi
            have e : n + 1 + i.val = n + (i.val + 1) := by omega
            rw [e] at hi
            have h := hle ⟨i.val + 1, by simpa using Nat.succ_lt_succ i.isLt⟩ hi
            simpa using h
          rw [scanRows_keep m rs (n + 1) r hkeep]
          simp
      | succ k =>
          rw [scanRows_cons]
          have hk : k < rs.length := by simpa using hjv
          have hgetj : (r :: rs).get ⟨k + 1, hjv⟩ = rs.get ⟨k, hk⟩ := rfl
          have hj' : m (n + 1 + k) = true := by
            have e : n + 1 + k = n + (k + 1) := by omega
            rw [e]
            simpa using hj
          have hle' : ∀ i : Fin rs.length, m (n + 1 + i.val) = true →
              (rs.get i).confidence ≤ (rs.get ⟨k, hk⟩).confidence := by
            intro i hi
            have e : n + 1 + i.val = n + (i.val + 1) := by omega
            rw [e] at hi
            have h := hle ⟨i.val + 1, by simpa using Nat.succ_lt_succ i.isLt⟩ hi
            rw [hgetj] at h
            simpa using h
          have hlt' : ∀ i : Fin rs.length, i.val < k → m (n + 1 + i.val) = true →
              (rs.get i).confidence < (rs.get ⟨k, hk⟩).confidence := by
            intro i hik hi
            have e : n + 1 + i.val = n + (i.val + 1) := by omega
            rw [e] at hi
            have h := hlt ⟨i.val + 1, by simpa using Nat.succ_lt_succ i.isLt⟩
              (by simpa using Nat.succ_lt_succ hik) hi
            rw [hgetj] at h
            simpa using h
          have hrconf : m n = true → r.confidence < (rs.get ⟨k, hk⟩).confidence := by
            intro hm
            have h := hlt ⟨0, by simp⟩ (by simpa using Nat.succ_pos k) (by simpa using hm)
            rw [hgetj] at h
            simpa using h
          rw [hgetj] at hacc ⊢
          by_cases hcond : (m n && acc.elim true
              (fun b => decide (b.confidence < r.confidence))) = true
          · rw [hcond, if_pos rfl]
            refine ih (n + 1) ⟨k, hk⟩ hj' hle' hlt' (some r) (Or.inr ⟨r, rfl, ?_⟩)
            have h2 := hcond
            simp only [Bool.and_eq_true] at h2
            exact hrconf h2.1
          · have hc2 : (m n && acc.elim true
                (fun b => decide (b.confidence < r.confidence))) = false := by
              simpa using hcond
            rw [hc2, if_neg Bool.false_ne_true]
            exact ih (n + 1) ⟨k, hk⟩ hj' hle' hlt' acc hacc

/-- C8: the classifier scans every row in declaration order and returns the
category, platform hint and confidence of the matching row with the highest
confidence, the earliest such row winning ties; with no matching row it
returns category unknown with confidence 0.  (The oracle m abstracts the
case-insensitive regex test of row i against the normalized text.) -/
theorem claim_C8 (m : Nat → Bool) :
    ((∀ i : Fin INTENT_PATTERNS.length, m i.val = false) →
      recognizeIntent m = ⟨"unknown", none, 0⟩) ∧
    (∀ j : Fin INTENT_PATTERNS.length, m j.val = true →
      (∀ i : Fin INTENT_PATTERNS.length, m i.val = true →
        (INTENT_PATTERNS.get i).confidence ≤ (INTENT_PATTERNS.get j).confidence) →
      (∀ i : Fin INTENT_PATTERNS.length, i.val < j.val → m i.val = true →
        (INTENT_PATTERNS.get i).confidence < (INTENT_PATTERNS.get j).confidence) →
      recognizeIntent m
        = ⟨(INTENT_PATTERNS.get j).category, (INTENT_PATTERNS.get j).platform,
           (INTENT_PATTERNS.get j).confidence⟩) := by
  constructor
  · intro hall
    rw [recognizeIntent, scanRows_none m INTENT_PATTERNS 0 none
      (fun i => by simpa using hall i)]
  · intro j hj hle hlt
    rw [recognizeIntent, scanRows_wins m INTENT_PATTERNS 0 j (by simpa using hj)
      (fun i hi => hle i (by simpa using hi))
      (fun i hik hi => hlt i hik (by simpa using hi)) none (Or.inl rfl)]

/-- C8 witness: an oracle matching only the final help row. -/
theorem claim_C8_witness :
    recognizeIntent (fun i => decide (i = 26)) = ⟨"help", none, 95/100⟩ := by
  have h := (claim_C8 (fun i => decide (i = 26))).2 ⟨26, by decide⟩ (by decide)
    (fun i hi => by
      have hv : i.val = 26 := of_decide_eq_true hi
      have he : i = ⟨26, by decide⟩ := Fin.ext hv
      rw [he])
    (fun i hik hi => by
      have hv : i.val = 26 := of_decide_eq_true hi
      have hik2 : i.val < 26 := hik
      omega)
  exact h
